import Mathlib

/-!
Shallow embedding of the njord SQLite layer: the insert-statement
generator (`src/njord/src/sqlite/insert.rs`) and the SELECT query
builder (`src/njord/src/sqlite/query.rs`), together with the pieces of
the crate they use (`Table` capability, `Condition`, the value-literal
converter) that are declared outside the two source files.
-/

namespace Njord

/-- Modelled from the spec: the crate's `Value` type (declared in the
driver / `crate::table`, not present under `src/`). The spec describes
it as a closed variant over integer, real, text, boolean, null, blob;
we model the variants the literal-conversion rules are stated for
(text, numeric, boolean, null). -/
inductive Value where
  | null
  | integer (i : Int)
  | boolean (b : Bool)
  | text (s : String)
deriving DecidableEq, Repr

/-- Driver-level error values (rusqlite errors), abstract. -/
inductive SqlError where
  | invalidColumnIndex
  | failure (msg : String)
deriving DecidableEq, Repr

/-- The `std::fmt::Error` unit type declared as the error of
`generate_statement`. -/
inductive FmtError where
  | mk
deriving DecidableEq, Repr

/-- Modelled from the spec: the `Condition` expression type
(`src/njord/src/sqlite/condition.rs`, not present under `src/`): leaves
are `(column, operator, value)` comparisons, interior nodes are binary
AND/OR combinators. -/
inductive Condition where
  | comparison (column op value : String)
  | and (l r : Condition)
  | or (l r : Condition)
deriving DecidableEq, Repr

/-- Modelled from the spec: `Condition::build` renders the tree to SQL
boolean-expression text, parenthesizing combinators to preserve the
tree's grouping. -/
def Condition.build : Condition → String
  | .comparison c o v => c ++ " " ++ o ++ " " ++ v
  | .and l r => "(" ++ l.build ++ " AND " ++ r.build ++ ")"
  | .or l r => "(" ++ l.build ++ " OR " ++ r.build ++ ")"

/-- The three read-only observations of a `dyn Table` used by the
insert path: `get_name()`, `get_column_fields()`, `get_column_values()`. -/
structure TableRow where
  name : String
  fields : List String
  values : List Value
deriving DecidableEq, Repr

/-- The full `Table` capability for a record type `R`, as used by the
query path: `get_name`, `get_column_fields`, `get_column_values`,
`set_column_value`, plus the `Default` bound of `build::<T>`. -/
structure TableCap (R : Type) where
  get_name : R → String
  get_column_fields : R → List String
  get_column_values : R → List Value
  set_column_value : R → String → Value → R
  default : R

/-- The single-quote character. -/
def squote : Char := Char.ofNat 39

/-- Modelled from the spec: the quote-escaping step of the value
converter (`src/njord/src/util.rs`, not present under `src/`): every
embedded single quote is doubled. -/
def escape_quotes : List Char → List Char
  | [] => []
  | c :: cs =>
    if c = squote then squote :: squote :: escape_quotes cs
    else c :: escape_quotes cs

/-- Modelled from the spec: the per-value literal rule of
`convert_insert_values` (`src/njord/src/util.rs`, not present under
`src/`): text is wrapped in single quotes with embedded single quotes
doubled, numeric and boolean values render in bare literal form, null
renders as `NULL`. -/
def convert_value : Value → String
  | .null => "NULL"
  | .integer i => toString i
  | .boolean b => if b then "true" else "false"
  | .text s => String.mk (squote :: escape_quotes s.data ++ [squote])

/-- Modelled from the spec: `convert_insert_values`
(`src/njord/src/util.rs`, not present under `src/`) maps a sequence of
values to one SQL literal string per input, in the same order. -/
def convert_insert_values (vs : List Value) : List String :=
  vs.map convert_value

/-- The accumulation loop of `generate_statement`: for each part,
`push_str` the part followed by `", "` onto the accumulator. -/
def pushAll : List String → String → String
  | [], acc => acc
  | p :: ps, acc => pushAll ps (acc ++ p ++ ", ")

/-- Rust `String::pop`: remove the last character (no-op on the empty
string). -/
def popChar (s : String) : String := String.mk s.data.dropLast

/-- `generate_statement` of `src/njord/src/sqlite/insert.rs`: build the
column list and the converted value list with trailing `", "` after
each entry, pop the trailing comma and space from both, and compose
`INSERT INTO <name> (<columns>) VALUES (<values>);`. Always returns
`Ok`. -/
def generate_statement (table_row : TableRow) : Except FmtError String :=
  let columns_str := pushAll table_row.fields ""
  let converted_values := convert_insert_values table_row.values
  let values_str := pushAll converted_values ""
  let columns_str := popChar (popChar columns_str)
  let values_str := popChar (popChar values_str)
  Except.ok ("INSERT INTO " ++ table_row.name ++ " (" ++ columns_str ++
    ") VALUES (" ++ values_str ++ ");")

/-- Reference join: the parts joined by the separator (Rust
`Vec::join` / the trimmed-separator shape of the generated lists). -/
def joinSep (sep : String) : List String → String
  | [] => ""
  | [p] => p
  | p :: ps => p ++ sep ++ joinSep sep ps

/-- Outcomes the insert path's driver can produce, supplied abstractly:
the result of opening the transaction, of executing a statement text,
and of committing. -/
structure DbBehavior where
  begin_result : Except SqlError Unit
  execute_result : String → Except SqlError Nat
  commit_result : Except SqlError Unit

/-- Driver calls attempted by `insert`, in order. -/
inductive DbAction where
  | beginTx
  | execute (sql : String)
  | commitTx
  | rollbackTx
deriving DecidableEq, Repr

instance {E A : Type} [DecidableEq E] [DecidableEq A] :
    DecidableEq (Except E A) := fun x y => by
  cases x <;> cases y <;>
    first
      | exact isFalse (fun h => Except.noConfusion h)
      | exact decidable_of_iff _ (Except.error.injEq _ _).to_iff.symm
      | exact decidable_of_iff _ (Except.ok.injEq _ _).to_iff.symm

/-- How an `insert` call terminates: a returned `Result`, or a
`panic!` aborting the process. -/
inductive InsertOutcome where
  | ret (r : Except SqlError Unit)
  | panicked
deriving DecidableEq, Repr

/-- `insert` of `src/njord/src/sqlite/insert.rs`: open a transaction
(`?`), generate the statement (panicking on a generation error),
execute it inside the transaction (`?`), commit (`?`), return `Ok(())`.
The second component is the trace of attempted driver calls. -/
def insert (db : DbBehavior) (table_row : TableRow) :
    InsertOutcome × List DbAction :=
  match db.begin_result with
  | .error e => (.ret (.error e), [.beginTx])
  | .ok _ =>
    match generate_statement table_row with
    | .error _ => (.panicked, [.beginTx])
    | .ok generated_statement =>
      match db.execute_result generated_statement with
      | .error e => (.ret (.error e), [.beginTx, .execute generated_statement])
      | .ok _ =>
        match db.commit_result with
        | .error e =>
          (.ret (.error e), [.beginTx, .execute generated_statement, .commitTx])
        | .ok _ =>
          (.ret (.ok ()), [.beginTx, .execute generated_statement, .commitTx])

/-- The configuration part of `QueryBuilder`
(`src/njord/src/sqlite/query.rs`), minus the connection handle.
`order_by` is a `HashMap<Vec<String>, String>` in the source; it is
modelled as an association list (its iteration order is unspecified in
the source, and no claim depends on it). -/
structure QueryBuilder where
  table : Option TableRow
  columns : List String
  where_condition : Option Condition
  selected : Bool
  distinct : Bool
  group_by : Option (List String)
  order_by : Option (List (List String × String))
  limit : Option Nat
  offset : Option Nat
  having_condition : Option Condition
deriving DecidableEq, Repr

/-- `QueryBuilder::new`: default/empty configuration with the given
columns. -/
def QueryBuilder.new (columns : List String) : QueryBuilder :=
  { table := none, columns := columns, where_condition := none,
    selected := false, distinct := false, group_by := none,
    order_by := none, limit := none, offset := none,
    having_condition := none }

/-- `QueryBuilder::select`. -/
def QueryBuilder.select (qb : QueryBuilder) (columns : List String) :
    QueryBuilder :=
  { qb with columns := columns, selected := true }

/-- `QueryBuilder::from` (named `fromTable` here; `from` is a Lean
keyword). -/
def QueryBuilder.fromTable (qb : QueryBuilder) (t : TableRow) :
    QueryBuilder :=
  { qb with table := some t }

/-- `QueryBuilder::where_clause`. -/
def QueryBuilder.where_clause (qb : QueryBuilder) (condition : Condition) :
    QueryBuilder :=
  { qb with where_condition := some condition }

/-- `QueryBuilder::having`. -/
def QueryBuilder.having (qb : QueryBuilder) (condition : Condition) :
    QueryBuilder :=
  { qb with having_condition := some condition }

/-- `QueryBuilder::build`, text-composition phase: render each clause
and concatenate with the fixed format string
`"SELECT {}{} FROM {} {} {} {} {} {}"`, the last argument being
`format!("{} {}", limit_str, offset_str)`. -/
def QueryBuilder.build_query_text (qb : QueryBuilder) : String :=
  let columns_str := joinSep ", " qb.columns
  let table_name_str := (qb.table.map (fun t => t.name)).getD ""
  let distinct_str := if qb.distinct then "DISTINCT " else ""
  let where_condition_str :=
    match qb.where_condition with
    | some condition => "WHERE " ++ condition.build
    | none => ""
  let group_by_str :=
    match qb.group_by with
    | some columns => "GROUP BY " ++ joinSep ", " columns
    | none => ""
  let order_by_str :=
    match qb.order_by with
    | some order_by =>
      let parts := order_by.map
        (fun p => joinSep ", " p.1 ++ " " ++ p.2)
      if parts.isEmpty then "" else "ORDER BY " ++ joinSep ", " parts
    | none => ""
  let limit_str :=
    match qb.limit with
    | some count => "LIMIT " ++ toString count
    | none => ""
  let offset_str :=
    match qb.offset with
    | some offset => "OFFSET " ++ toString offset
    | none => ""
  let having_str :=
    match qb.group_by, qb.having_condition with
    | some _, some condition => "HAVING " ++ condition.build
    | _, _ => ""
  "SELECT " ++ distinct_str ++ columns_str ++ " FROM " ++ table_name_str ++
    " " ++ where_condition_str ++ " " ++ group_by_str ++ " " ++ having_str ++
    " " ++ order_by_str ++ " " ++ (limit_str ++ " " ++ offset_str)

/-- Spec-side renderer of the DISTINCT marker. -/
def distinct_clause_str (b : Bool) : String :=
  if b then "DISTINCT " else ""

/-- Spec-side renderer of the WHERE clause. -/
def where_clause_str : Option Condition → String
  | some c => "WHERE " ++ c.build
  | none => ""

/-- Spec-side renderer of the GROUP BY clause. -/
def group_by_clause_str : Option (List String) → String
  | some cols => "GROUP BY " ++ joinSep ", " cols
  | none => ""

/-- Spec-side renderer of the HAVING clause: emitted only when both a
group-by and a having-condition are configured. -/
def having_clause_str :
    Option (List String) → Option Condition → String
  | some _, some c => "HAVING " ++ c.build
  | _, _ => ""

/-- Spec-side renderer of the ORDER BY clause. -/
def order_by_clause_str : Option (List (List String × String)) → String
  | some ob =>
    let parts := ob.map (fun p => joinSep ", " p.1 ++ " " ++ p.2)
    if parts.isEmpty then "" else "ORDER BY " ++ joinSep ", " parts
  | none => ""

/-- Spec-side renderer of the LIMIT clause. -/
def limit_clause_str : Option Nat → String
  | some n => "LIMIT " ++ toString n
  | none => ""

/-- Spec-side renderer of the OFFSET clause. -/
def offset_clause_str : Option Nat → String
  | some n => "OFFSET " ++ toString n
  | none => ""

/-- Positional column access on a result row
(`row.get::<usize, Value>(i)`): out-of-range access is a driver
error. -/
def rowGet (row : List Value) (i : Nat) : Except SqlError Value :=
  match row.get? i with
  | some v => Except.ok v
  | none => Except.error SqlError.invalidColumnIndex

/-- The row-mapping loop of `QueryBuilder::build`: for the field at
enumeration index `idx`, read the row value at position `idx + 1`
(propagating a read error) and write it into the record with
`set_column_value`. -/
def mapRowLoop {R : Type} (T : TableCap R) (row : List Value) :
    R → List String → Nat → Except SqlError R
  | inst, [], _ => Except.ok inst
  | inst, c :: cs, idx =>
    match rowGet row (idx + 1) with
    | .error e => .error e
    | .ok v => mapRowLoop T row (T.set_column_value inst c v) cs (idx + 1)

/-- The per-row closure of `QueryBuilder::build`: start from
`T::default()`, read its `get_column_fields()` list, and run the
mapping loop from enumeration index 0. -/
def mapRow {R : Type} (T : TableCap R) (row : List Value) :
    Except SqlError R :=
  mapRowLoop T row T.default (T.get_column_fields T.default) 0

/-- Spec-side pure form of the mapping loop: the field at enumeration
index `idx` receives the row value at position `idx + 1`. -/
def mapRowSpec {R : Type} (set : R → String → Value → R)
    (row : List Value) : R → List String → Nat → R
  | inst, [], _ => inst
  | inst, c :: cs, idx =>
    mapRowSpec set row (set inst c (row.getD (idx + 1) Value.null)) cs (idx + 1)

/-- Rust's `Result::and_then` / the `?` operator inside the mapping
closure. -/
def exceptAndThen {E A B : Type} (r : Except E A) (f : A → Except E B) :
    Except E B :=
  match r with
  | .error e => .error e
  | .ok a => f a

/-- Rust's `collect::<Result<Vec<T>>>()`: all items if every item is
`Ok`, otherwise the first `Err`. -/
def collectResults {E A : Type} : List (Except E A) → Except E (List A)
  | [] => .ok []
  | .error e :: _ => .error e
  | .ok a :: rest =>
    match collectResults rest with
    | .error e => .error e
    | .ok as => .ok (a :: as)

/-- The execution phase of `QueryBuilder::build`, with the driver's
outcomes supplied abstractly: `prepare` (`?`), `query_map` (`?`), then
each fetched-row result is bound through the mapping closure and the
results are collected, short-circuiting at the first error. -/
def runQuery {R : Type} (prep : Except SqlError Unit)
    (exec : Except SqlError Unit)
    (rows : List (Except SqlError (List Value)))
    (T : TableCap R) : Except SqlError (List R) :=
  match prep with
  | .error e => .error e
  | .ok _ =>
    match exec with
    | .error e => .error e
    | .ok _ =>
      collectResults (rows.map (fun rr => exceptAndThen rr (mapRow T)))

/-- The spec's running example row: table `users`, fields
`["id","name"]`, values `[1, "O'Brien"]`. -/
def usersRow : TableRow :=
  { name := "users", fields := ["id", "name"],
    values := [Value.integer 1, Value.text "O'Brien"] }

/-- The spec's example builder configuration:
`.select(["id","name"]).from(users).where_clause(id = 5)`. -/
def exampleBuilder : QueryBuilder :=
  ((QueryBuilder.new []).select ["id", "name"]).fromTable
      { name := "users", fields := [], values := [] }
    |>.where_clause (Condition.comparison "id" "=" "5")

/-- A concrete `Table` capability over association-list records, used
to instantiate the row-mapping theorems. -/
def recordCap : TableCap (List (String × Value)) :=
  { get_name := fun _ => "users",
    get_column_fields := fun _ => ["id", "name"],
    get_column_values := fun r => r.map Prod.snd,
    set_column_value := fun inst c v => inst ++ [(c, v)],
    default := [] }

/-- A concrete three-column result row. -/
def exampleRow : List Value :=
  [Value.integer 0, Value.integer 1, Value.text "O'Brien"]

/-- A driver behavior whose execute step fails. -/
def failingDb : DbBehavior :=
  { begin_result := Except.ok (),
    execute_result := fun _ => Except.error (SqlError.failure "exec"),
    commit_result := Except.ok () }

theorem pushAll_shift (ps : List String) (acc : String) :
    pushAll ps acc = acc ++ pushAll ps "" := by
  induction ps generalizing acc with
  | nil => simp [pushAll, String.append_empty]
  | cons p ps ih =>
    rw [pushAll, pushAll, ih (acc ++ p ++ ", "), ih ("" ++ p ++ ", ")]
    apply String.ext
    simp [String.data_append]

theorem popChar_popChar_append (s : String) :
    popChar (popChar (s ++ ", ")) = s := by
  apply String.ext
  have h : (s ++ ", ").data = (s.data ++ [',']) ++ [' '] := by
    simp [String.data_append]
  simp only [popChar, h, List.dropLast_concat]

theorem joinSep_cons_cons (sep p q : String) (qs : List String) :
    joinSep sep (p :: q :: qs) = p ++ sep ++ joinSep sep (q :: qs) := rfl

theorem pushAll_cons_eq (p : String) (ps : List String) :
    pushAll (p :: ps) "" = joinSep ", " (p :: ps) ++ ", " := by
  induction ps generalizing p with
  | nil =>
    simp [pushAll, joinSep, String.empty_append]
  | cons q qs ih =>
    rw [pushAll, pushAll_shift, ih q, joinSep_cons_cons]
    apply String.ext
    simp [String.data_append]

theorem trim_pushAll (ps : List String) :
    popChar (popChar (pushAll ps "")) = joinSep ", " ps := by
  cases ps with
  | nil => rfl
  | cons p ps =>
    rw [pushAll_cons_eq, popChar_popChar_append]

/-- Claim C1: for any Table record, `generate_statement` produces
`INSERT INTO <name> (<columns>) VALUES (<values>);` where the column
list is exactly the `get_column_fields()` names joined by `", "` in
order, the value list is exactly the converted `get_column_values()`
literals joined identically in order (as many literals as fields, the
lists being positionally aligned), and the trailing separator has been
trimmed. -/
theorem generate_statement_joins_columns_and_values (t : TableRow)
    (h : t.fields.length = t.values.length) :
    generate_statement t = Except.ok ("INSERT INTO " ++ t.name ++ " (" ++
      joinSep ", " t.fields ++ ") VALUES (" ++
      joinSep ", " (convert_insert_values t.values) ++ ");") ∧
    (convert_insert_values t.values).length = t.fields.length := by
  constructor
  · simp only [generate_statement, trim_pushAll]
  · simp [convert_insert_values, h]

/-- Witness for C1: the spec's example, table `users` with fields
`["id","name"]` and values `[1, "O'Brien"]`. -/
theorem generate_statement_joins_witness :
    usersRow.fields.length = usersRow.values.length ∧
    generate_statement usersRow =
      Except.ok "INSERT INTO users (id, name) VALUES (1, 'O''Brien');" := by
  refine ⟨by decide, ?_⟩
  have h := generate_statement_joins_columns_and_values usersRow (by decide)
  rw [h.1]
  rfl

theorem escape_quotes_eq_bind (l : List Char) :
    escape_quotes l =
      l.flatMap (fun c => if c = squote then [c, c] else [c]) := by
  induction l with
  | nil => rfl
  | cons c cs ih =>
    by_cases h : c = squote <;> simp [escape_quotes, h, ih]

theorem escape_quotes_count (l : List Char) :
    (escape_quotes l).count squote = 2 * l.count squote := by
  induction l with
  | nil => rfl
  | cons c cs ih =>
    by_cases h : c = squote <;>
      simp [escape_quotes, h, ih, List.count_cons] <;> omega

/-- Claim C6: the value-literal converter produces one literal per
input value in the same order (none dropped or reordered); a text
value is wrapped in single quotes with every embedded single quote
doubled (`O'Brien` becomes `'O''Brien'`), integers and booleans render
as their bare literal form, and null renders as `NULL`. -/
theorem convert_insert_values_spec (vs : List Value) (s : String)
    (i : Int) (b : Bool) :
    convert_insert_values vs = vs.map convert_value ∧
    (convert_insert_values vs).length = vs.length ∧
    (convert_value (Value.text s)).data =
      squote :: escape_quotes s.data ++ [squote] ∧
    escape_quotes s.data =
      s.data.flatMap (fun c => if c = squote then [c, c] else [c]) ∧
    (escape_quotes s.data).count squote = 2 * s.data.count squote ∧
    convert_value (Value.text "O'Brien") = "'O''Brien'" ∧
    convert_value Value.null = "NULL" ∧
    convert_value (Value.integer i) = toString i ∧
    convert_value (Value.boolean b) = (if b then "true" else "false") := by
  refine ⟨rfl, by simp [convert_insert_values], rfl,
    escape_quotes_eq_bind s.data, escape_quotes_count s.data,
    by decide, rfl, rfl, rfl⟩

theorem build_query_text_eq (qb : QueryBuilder) :
    qb.build_query_text =
      "SELECT " ++ distinct_clause_str qb.distinct ++
      joinSep ", " qb.columns ++ " FROM " ++
      (qb.table.map (fun t => t.name)).getD "" ++ " " ++
      where_clause_str qb.where_condition ++ " " ++
      group_by_clause_str qb.group_by ++ " " ++
      having_clause_str qb.group_by qb.having_condition ++ " " ++
      order_by_clause_str qb.order_by ++ " " ++
      (limit_clause_str qb.limit ++ " " ++
        offset_clause_str qb.offset) := rfl

/-- Claim C4: `build` concatenates the rendered clauses in the fixed
order SELECT [DISTINCT] columns, FROM table, WHERE, GROUP BY, HAVING,
ORDER BY, LIMIT, OFFSET, and every clause whose option is unset
renders as the empty string. -/
theorem build_fixed_clause_order (qb : QueryBuilder) :
    (qb.build_query_text =
      "SELECT " ++ distinct_clause_str qb.distinct ++
      joinSep ", " qb.columns ++ " FROM " ++
      (qb.table.map (fun t => t.name)).getD "" ++ " " ++
      where_clause_str qb.where_condition ++ " " ++
      group_by_clause_str qb.group_by ++ " " ++
      having_clause_str qb.group_by qb.having_condition ++ " " ++
      order_by_clause_str qb.order_by ++ " " ++
      (limit_clause_str qb.limit ++ " " ++
        offset_clause_str qb.offset)) ∧
    distinct_clause_str false = "" ∧
    where_clause_str none = "" ∧
    group_by_clause_str none = "" ∧
    (∀ h, having_clause_str none h = "") ∧
    (∀ g, having_clause_str g none = "") ∧
    order_by_clause_str none = "" ∧
    limit_clause_str none = "" ∧
    offset_clause_str none = "" ∧
    ((none : Option TableRow).map (fun t => t.name)).getD "" = "" := by
  refine ⟨build_query_text_eq qb, rfl, rfl, rfl, fun h => rfl,
    fun g => ?_, rfl, rfl, rfl, rfl⟩
  cases g <;> rfl

/-- Claim C2: the having clause of the compiled text is empty whenever
`group_by` was never set, even if a having-condition is configured,
and it is the nonempty `HAVING <condition>` exactly when both a
group-by and a having-condition are set. -/
theorem having_emitted_only_with_group_by (qb : QueryBuilder) :
    (qb.build_query_text =
      "SELECT " ++ distinct_clause_str qb.distinct ++
      joinSep ", " qb.columns ++ " FROM " ++
      (qb.table.map (fun t => t.name)).getD "" ++ " " ++
      where_clause_str qb.where_condition ++ " " ++
      group_by_clause_str qb.group_by ++ " " ++
      having_clause_str qb.group_by qb.having_condition ++ " " ++
      order_by_clause_str qb.order_by ++ " " ++
      (limit_clause_str qb.limit ++ " " ++
        offset_clause_str qb.offset)) ∧
    (∀ h, having_clause_str none h = "") ∧
    (∀ g, having_clause_str g none = "") ∧
    (∀ gs c, having_clause_str (some gs) (some c) =
      "HAVING " ++ c.build) ∧
    (∀ gs c, 0 < (having_clause_str (some gs) (some c)).length) := by
  refine ⟨build_query_text_eq qb, fun h => rfl, fun g => ?_,
    fun gs c => rfl, fun gs c => ?_⟩
  · cases g <;> rfl
  · simp only [having_clause_str, String.length_append]
    have h2 : "HAVING ".length = 7 := by decide
    omega

/-- Claim C9: the LIMIT segment of the compiled text is `LIMIT n`
(nonempty) exactly when `limit(n)` was configured and empty otherwise,
and likewise the OFFSET segment is `OFFSET n` exactly when `offset(n)`
was configured. -/
theorem limit_offset_iff_configured (qb : QueryBuilder) :
    (qb.build_query_text =
      "SELECT " ++ distinct_clause_str qb.distinct ++
      joinSep ", " qb.columns ++ " FROM " ++
      (qb.table.map (fun t => t.name)).getD "" ++ " " ++
      where_clause_str qb.where_condition ++ " " ++
      group_by_clause_str qb.group_by ++ " " ++
      having_clause_str qb.group_by qb.having_condition ++ " " ++
      order_by_clause_str qb.order_by ++ " " ++
      (limit_clause_str qb.limit ++ " " ++
        offset_clause_str qb.offset)) ∧
    limit_clause_str none = "" ∧
    offset_clause_str none = "" ∧
    (∀ n, limit_clause_str (some n) = "LIMIT " ++ toString n) ∧
    (∀ n, offset_clause_str (some n) = "OFFSET " ++ toString n) ∧
    (∀ n, 0 < (limit_clause_str (some n)).length) ∧
    (∀ n, 0 < (offset_clause_str (some n)).length) := by
  refine ⟨build_query_text_eq qb, rfl, rfl, fun n => rfl, fun n => rfl,
    fun n => ?_, fun n => ?_⟩
  · simp only [limit_clause_str, String.length_append]
    have h2 : "LIMIT ".length = 6 := by decide
    omega
  · simp only [offset_clause_str, String.length_append]
    have h2 : "OFFSET ".length = 7 := by decide
    omega

/-- Claim C3 fails as stated: the example configuration does not
compile to exactly `SELECT id, name FROM users WHERE id = 5`; the
absent clauses leave their separator spaces behind. -/
theorem build_example_not_exact :
    exampleBuilder.build_query_text ≠
      "SELECT id, name FROM users WHERE id = 5" := by decide

/-- Claim C3 as amended: the example configuration compiles to
`SELECT id, name FROM users WHERE id = 5` followed by five trailing
spaces, the separators of the absent clauses; no clause text beyond
the configured ones appears. -/
theorem build_example_trailing_spaces :
    exampleBuilder.build_query_text =
      "SELECT id, name FROM users WHERE id = 5     " := by decide

theorem mapRowLoop_ok {R : Type} (T : TableCap R) (row : List Value) :
    ∀ (cs : List String) (inst : R) (idx : Nat),
      idx + cs.length < row.length →
      mapRowLoop T row inst cs idx =
        Except.ok (mapRowSpec T.set_column_value row inst cs idx) := by
  intro cs
  induction cs with
  | nil => intro inst idx h; rfl
  | cons c cs ih =>
    intro inst idx h
    have hlt : idx + 1 < row.length := by
      simp only [List.length_cons] at h; omega
    cases e : row.get? (idx + 1) with
    | none =>
      have := List.get?_eq_none.mp e
      omega
    | some v =>
      have hd : row.getD (idx + 1) Value.null = v := by
        simp [List.getD_eq_getElem?_getD, ← List.get?_eq_getElem?, e]
      rw [mapRowLoop, rowGet, e, mapRowSpec, hd]
      exact ih _ _ (by simp only [List.length_cons] at h; omega)

/-- Claim C5: the row-mapping step starts from a default-initialized
record and, for the field at index `i` of the record's declared
`get_column_fields()` list, reads the row's positional value at column
`i + 1` — position one for the first field, not position zero — and
writes it into the record via `set_column_value`. -/
theorem row_mapping_reads_position_one {R : Type} (T : TableCap R)
    (row : List Value)
    (h : (T.get_column_fields T.default).length < row.length) :
    mapRow T row = Except.ok (mapRowSpec T.set_column_value row T.default
      (T.get_column_fields T.default) 0) := by
  exact mapRowLoop_ok T row _ _ 0 (by omega)

/-- Witness for C5: a two-field record mapped from a three-column row
receives the values at positions 1 and 2; the value at position 0 is
never read. -/
theorem row_mapping_witness :
    (recordCap.get_column_fields recordCap.default).length <
      exampleRow.length ∧
    mapRow recordCap exampleRow =
      Except.ok [("id", Value.integer 1), ("name", Value.text "O'Brien")] := by
  refine ⟨by decide, ?_⟩
  have h := row_mapping_reads_position_one recordCap exampleRow (by decide)
  rw [h]
  rfl

theorem collectResults_map_ok {E A : Type} (as : List A) :
    collectResults (E := E) (as.map Except.ok) = Except.ok as := by
  induction as with
  | nil => rfl
  | cons a t ih => simp [collectResults, List.map_cons, ih]

theorem collectResults_ok_elim {E A : Type} :
    ∀ (l : List (Except E A)) (as : List A),
      collectResults l = Except.ok as → l = as.map Except.ok := by
  intro l
  induction l with
  | nil =>
    intro as h
    simp only [collectResults] at h
    injection h with h
    subst h
    rfl
  | cons x t ih =>
    intro as h
    cases x with
    | error e => simp [collectResults] at h
    | ok a =>
      cases hc : collectResults t with
      | error e' =>
        rw [collectResults, hc] at h
        exact absurd h (by simp)
      | ok cs =>
        rw [collectResults, hc] at h
        injection h with h
        subst h
        simp [List.map_cons, ih cs hc]

theorem collectResults_ok_iff {E A : Type} (l : List (Except E A))
    (as : List A) :
    collectResults l = Except.ok as ↔ l = as.map Except.ok := by
  constructor
  · exact collectResults_ok_elim l as
  · intro h; subst h; exact collectResults_map_ok as

theorem collectResults_error_iff {E A : Type} :
    ∀ (l : List (Except E A)) (e : E),
      collectResults l = Except.error e ↔
        ∃ (pre : List A) (rest : List (Except E A)),
          l = pre.map Except.ok ++ Except.error e :: rest := by
  intro l
  induction l with
  | nil =>
    intro e
    constructor
    · intro h; simp [collectResults] at h
    · rintro ⟨pre, rest, h⟩
      cases pre <;> simp at h
  | cons x t ih =>
    intro e
    cases x with
    | error e' =>
      constructor
      · intro h
        simp only [collectResults] at h
        injection h with h
        subst h
        exact ⟨[], t, rfl⟩
      · rintro ⟨pre, rest, h⟩
        cases pre with
        | nil =>
          simp only [List.map_nil, List.nil_append, List.cons.injEq] at h
          obtain ⟨h1, h2⟩ := h
          injection h1 with h1
          subst h1
          rfl
        | cons p ps => simp at h
    | ok a =>
      constructor
      · intro h
        cases hc : collectResults t with
        | error e'' =>
          rw [collectResults, hc] at h
          injection h with h
          subst h
          obtain ⟨pre, rest, hp⟩ := (ih _).mp hc
          exact ⟨a :: pre, rest, by simp [hp]⟩
        | ok cs =>
          rw [collectResults, hc] at h
          exact absurd h (by simp)
      · rintro ⟨pre, rest, hp⟩
        cases pre with
        | nil => simp at hp
        | cons p ps =>
          simp only [List.map_cons, List.cons_append, List.cons.injEq] at hp
          obtain ⟨hpa, ht⟩ := hp
          injection hpa with hpa
          subst hpa
          have : collectResults t = Except.error e :=
            (ih e).mpr ⟨ps, rest, ht⟩
          rw [collectResults, this]

/-- Claim C7: the query path returns no partial row sequence: the
result is `Ok` exactly when preparation, execution, every row fetch
and every row mapping succeed, in which case it is all mapped records
in row-fetch order; it is `Error e` exactly when `e` is the first
encountered failure (a prepare error, else an execute error, else the
first row whose fetch-and-map fails, all earlier rows having
succeeded). -/
theorem build_no_partial_rows {R : Type} (prep exec : Except SqlError Unit)
    (rows : List (Except SqlError (List Value))) (T : TableCap R)
    (ts : List R) (e : SqlError) :
    (runQuery prep exec rows T = Except.ok ts ↔
      prep = Except.ok () ∧ exec = Except.ok () ∧
      rows.map (fun rr => exceptAndThen rr (mapRow T)) =
        ts.map Except.ok) ∧
    (runQuery prep exec rows T = Except.error e ↔
      prep = Except.error e ∨
      (prep = Except.ok () ∧ exec = Except.error e) ∨
      (prep = Except.ok () ∧ exec = Except.ok () ∧
        ∃ (pre : List R) (rest : List (Except SqlError R)),
          rows.map (fun rr => exceptAndThen rr (mapRow T)) =
            pre.map Except.ok ++ Except.error e :: rest)) := by
  cases prep with
  | error e' =>
    constructor
    · simp [runQuery]
    · simp [runQuery]
  | ok u =>
    cases u
    cases exec with
    | error e' =>
      constructor
      · simp [runQuery]
      · simp [runQuery]
    | ok u' =>
      cases u'
      constructor
      · simp [runQuery, collectResults_ok_iff]
      · simp [runQuery, collectResults_error_iff]

/-- Claim C8: `insert` attempts the commit only after the composed
INSERT statement executed successfully; if execution fails, the call
returns the execution error with no commit in its trace, and no
rollback call ever appears in the trace (the transaction scope is
simply abandoned). -/
theorem insert_commits_only_after_success (db : DbBehavior)
    (t : TableRow) :
    ∃ sql, generate_statement t = Except.ok sql ∧
      ((∃ e, db.begin_result = Except.error e ∧
          insert db t =
            (InsertOutcome.ret (Except.error e), [DbAction.beginTx])) ∨
       (∃ e, db.begin_result = Except.ok () ∧
          db.execute_result sql = Except.error e ∧
          insert db t = (InsertOutcome.ret (Except.error e),
            [DbAction.beginTx, DbAction.execute sql])) ∨
       (db.begin_result = Except.ok () ∧
          (∃ n, db.execute_result sql = Except.ok n) ∧
          insert db t = (InsertOutcome.ret db.commit_result,
            [DbAction.beginTx, DbAction.execute sql,
              DbAction.commitTx]))) ∧
      (insert db t).2.count DbAction.rollbackTx = 0 := by
  obtain ⟨sql, hsql⟩ : ∃ s, generate_statement t = Except.ok s := ⟨_, rfl⟩
  refine ⟨sql, hsql, ?_, ?_⟩
  · cases hb : db.begin_result with
    | error e => exact Or.inl ⟨e, rfl, by simp [insert, hb]⟩
    | ok u =>
      cases u
      cases he : db.execute_result sql with
      | error e =>
        exact Or.inr (Or.inl ⟨e, rfl, rfl, by simp [insert, hb, hsql, he]⟩)
      | ok n =>
        refine Or.inr (Or.inr ⟨rfl, ⟨n, rfl⟩, ?_⟩)
        cases hc : db.commit_result with
        | error e => simp [insert, hb, hsql, he, hc]
        | ok u' => cases u'; simp [insert, hb, hsql, he, hc]
  · cases hb : db.begin_result with
    | error e => simp [insert, hb, List.count_cons]
    | ok u =>
      cases u
      cases he : db.execute_result sql with
      | error e => simp [insert, hb, hsql, he, List.count_cons]
      | ok n =>
        cases hc : db.commit_result with
        | error e => simp [insert, hb, hsql, he, hc, List.count_cons]
        | ok u' => cases u'; simp [insert, hb, hsql, he, hc, List.count_cons]

/-- Claim C10: `generate_statement` returns `Ok` on every input, so
the abort-on-generation-failure branch of `insert` is unreachable:
every `insert` call terminates with a returned result, never with the
generation panic. -/
theorem generate_statement_never_fails (t : TableRow) (db : DbBehavior) :
    (∃ sql, generate_statement t = Except.ok sql) ∧
    (∃ r, (insert db t).1 = InsertOutcome.ret r) := by
  obtain ⟨sql, hsql⟩ : ∃ s, generate_statement t = Except.ok s := ⟨_, rfl⟩
  refine ⟨⟨sql, hsql⟩, ?_⟩
  cases hb : db.begin_result with
  | error e => exact ⟨Except.error e, by simp [insert, hb]⟩
  | ok u =>
    cases u
    cases he : db.execute_result sql with
    | error e => exact ⟨Except.error e, by simp [insert, hb, hsql, he]⟩
    | ok n =>
      cases hc : db.commit_result with
      | error e => exact ⟨Except.error e, by simp [insert, hb, hsql, he, hc]⟩
      | ok u' =>
        cases u'
        exact ⟨Except.ok (), by simp [insert, hb, hsql, he, hc]⟩

end Njord
